import Mathlib

/-!
Shallow embedding of `ldc-rs` (`src/lib.rs`), a local data cache library:
a raw `FileHandler` over a filesystem path, two typed caches on top of it
(`CacheFile`, binary codec; `CacheConfig`, JSON codec), and the
`cache_folder` directory helper.

The filesystem is modeled as an explicit state: an association list from
paths to byte contents, a list of existing directories, and two
error-injection sets (`rdeny`: paths whose open-for-read fails with a
permission error, `wdeny`: paths whose create/open-for-write fails).
Bytes are `List Nat`. Rust's `Result<_, Box<dyn Error>>` becomes
`Except Err _` with an error-kind inductive. A panic (`.unwrap()`) is
modeled as `Option.none` on the function's result.

The serialization formats (`bincode`, `serde_json`) are external
collaborators: the code only uses their encode/decode interface, so they
are modeled as codec parameters (`Codec`, `JsonCodec`), and `append`'s
`Display`/`FromStr` pair as `StrConv`.
-/

namespace LDC

abbrev Bytes := List Nat

/-- Error kinds carried by `Box<dyn Error>` in the source. -/
inductive Err
  | io
  | decode
  | encode
  | parse
deriving DecidableEq, Repr

/-- Filesystem state: files (path to contents), directories, and
error-injection sets for permission failures. -/
structure FS where
  files : List (String × Bytes)
  dirs : List String
  rdeny : List String
  wdeny : List String
deriving DecidableEq, Repr

/-- Contents of the file at path `p`, if a file exists there. -/
def FS.file? (fs : FS) (p : String) : Option Bytes :=
  (fs.files.find? (fun e => e.1 == p)).map (fun e => e.2)

/-- Create-or-truncate: the file at `p` now holds exactly `bs`. -/
def FS.setFile (fs : FS) (p : String) (bs : Bytes) : FS :=
  { fs with files := (p, bs) :: fs.files.filter (fun e => e.1 != p) }

/-- Remove the file at `p`. -/
def FS.removeFile (fs : FS) (p : String) : FS :=
  { fs with files := fs.files.filter (fun e => e.1 != p) }

/-- `Path::exists`: a file or directory is present at `p`. -/
def FS.pathExists (fs : FS) (p : String) : Bool :=
  (fs.file? p).isSome || fs.dirs.contains p

/-- `FileHandler` (src/lib.rs:331-335): a path plus the advisory cache of
the last successful read (`content`). -/
structure FileHandler where
  path : String
  content : Option Bytes
deriving DecidableEq, Repr

/-- `FileHandler::new` (src/lib.rs:338-343). -/
def FileHandler.new (p : String) : FileHandler :=
  { path := p, content := none }

/-- `FileHandler::read` (src/lib.rs:346-355): `File::open` then
`read_to_end`; on success the advisory cache is updated to the bytes
read. `File::open` fails if the path is read-denied or no file is there.
The filesystem is not modified. -/
def FileHandler.read (fs : FS) (fh : FileHandler) : Except Err Bytes × FileHandler :=
  if fs.rdeny.contains fh.path then (Except.error Err.io, fh)
  else
    match fs.file? fh.path with
    | some bs => (Except.ok bs, { fh with content := some bs })
    | none => (Except.error Err.io, fh)

/-- `FileHandler::write` (src/lib.rs:358-365): `File::create` (truncating)
then `write_all`; fails if the path is write-denied (creation/permission
failure). -/
def FileHandler.write (fs : FS) (fh : FileHandler) (content : Bytes) : Except Err FS :=
  if fs.wdeny.contains fh.path then Except.error Err.io
  else Except.ok (fs.setFile fh.path content)

/-- `FileHandler::append` (src/lib.rs:368-377): `OpenOptions` with
`write(true).append(true)` and no `create`, so the open fails when the
file does not already exist; otherwise the bytes go at the end. -/
def FileHandler.append (fs : FS) (fh : FileHandler) (content : Bytes) : Except Err FS :=
  if fs.wdeny.contains fh.path then Except.error Err.io
  else
    match fs.file? fh.path with
    | some old => Except.ok (fs.setFile fh.path (old ++ content))
    | none => Except.error Err.io

/-- `FileHandler::delete` (src/lib.rs:380-385): `fs::remove_file`, which
fails when no file is at the path. -/
def FileHandler.delete (fs : FS) (fh : FileHandler) : Except Err FS :=
  match fs.file? fh.path with
  | some _ => Except.ok (fs.removeFile fh.path)
  | none => Except.error Err.io

/-- `FileHandler::exists` (src/lib.rs:387-389): `self.path.exists()`. -/
def FileHandler.existsq (fs : FS) (fh : FileHandler) : Bool :=
  fs.pathExists fh.path

/-- `FileHandler::copy_to` (src/lib.rs:392-400): `fs::copy`; fails if the
source is unreadable or absent or the destination is write-denied. -/
def FileHandler.copy_to (fs : FS) (fh : FileHandler) (destination : String) : Except Err FS :=
  if fs.rdeny.contains fh.path || fs.wdeny.contains destination then Except.error Err.io
  else
    match fs.file? fh.path with
    | some bs => Except.ok (fs.setFile destination bs)
    | none => Except.error Err.io

/-- `FileHandler::move_to` (src/lib.rs:402-411): `fs::rename`. -/
def FileHandler.move_to (fs : FS) (fh : FileHandler) (destination : String) : Except Err FS :=
  if fs.wdeny.contains destination then Except.error Err.io
  else
    match fs.file? fh.path with
    | some bs => Except.ok ((fs.removeFile fh.path).setFile destination bs)
    | none => Except.error Err.io

/-- `FileHandler::metadata` (src/lib.rs:413-415): `fs::metadata`, modeled
as returning the file size; fails when the file is absent. -/
def FileHandler.metadata (fs : FS) (fh : FileHandler) : Except Err Nat :=
  match fs.file? fh.path with
  | some bs => Except.ok bs.length
  | none => Except.error Err.io

/-- `FileHandler::get_path` (src/lib.rs:417-419). -/
def FileHandler.get_path (fh : FileHandler) : String :=
  fh.path

/-- The binary codec interface (`bincode::serialize` /
`bincode::deserialize`), an external collaborator; both directions can
fail. -/
structure Codec (T : Type) where
  encode : T → Option Bytes
  decode : Bytes → Option T

/-- The JSON codec interface (`serde_json::to_string` /
`serde_json::from_slice`), an external collaborator. -/
structure JsonCodec (T : Type) where
  to_string : T → Option String
  from_slice : Bytes → Option T

/-- `str::as_bytes`, modeled as the character codes. -/
def strBytes (s : String) : Bytes :=
  s.toList.map Char.toNat

/-- The `Display`/`FromStr` pair required by `CacheFile::append`. -/
structure StrConv (T : Type) where
  toStr : T → String
  fromStr : String → Option T

/-- `CacheFile<T>` (src/lib.rs:43-46). -/
structure CacheFile (T : Type) where
  file_handler : FileHandler
  data_type : T
deriving DecidableEq, Repr

/-- `CacheFile::new` (src/lib.rs:53-82): read the file and decode with the
binary codec; on read failure or decode failure fall back to
`T::default()` (here the explicit `default` argument). Total: construction
never fails and never writes to the filesystem. -/
def CacheFile.new {T : Type} (codec : Codec T) (default : T) (fs : FS)
    (file_handler : FileHandler) : CacheFile T :=
  match FileHandler.read fs file_handler with
  | (Except.ok bytes, fh) =>
    match codec.decode bytes with
    | some data => { file_handler := fh, data_type := data }
    | none => { file_handler := fh, data_type := default }
  | (Except.error _, fh) => { file_handler := fh, data_type := default }

/-- `CacheFile::get_data` (src/lib.rs:84-86). -/
def CacheFile.get_data {T : Type} (c : CacheFile T) : T :=
  c.data_type

/-- `CacheFile::read` (src/lib.rs:93-110): re-read and decode; on success
store the decoded value and return a clone of it; on failure return the
error (the stored value is not assigned). -/
def CacheFile.read {T : Type} (codec : Codec T) (fs : FS) (c : CacheFile T) :
    Except Err T × CacheFile T :=
  match FileHandler.read fs c.file_handler with
  | (Except.ok bytes, fh) =>
    match codec.decode bytes with
    | some data => (Except.ok data, { file_handler := fh, data_type := data })
    | none => (Except.error Err.decode, { c with file_handler := fh })
  | (Except.error e, fh) => (Except.error e, { c with file_handler := fh })

/-- `CacheFile::write` (src/lib.rs:113-126): encode the in-memory value
with the binary codec and persist with `FileHandler::write`; an encode
failure is returned without touching the file. -/
def CacheFile.write {T : Type} (codec : Codec T) (fs : FS) (c : CacheFile T) :
    Except Err FS :=
  match codec.encode c.data_type with
  | some bytes => FileHandler.write fs c.file_handler bytes
  | none => Except.error Err.encode

/-- `CacheFile::append` (src/lib.rs:129-150): `self.read()?`, concatenate
the display strings, re-parse; on parse success store the parsed value and
`self.write()?`; on parse failure return the parse error (the value read
from disk has already been stored by `self.read()`). Returns the new
filesystem (on success) and the updated cache. -/
def CacheFile.append {T : Type} (codec : Codec T) (conv : StrConv T) (fs : FS)
    (c : CacheFile T) (data_type : T) : Except Err FS × CacheFile T :=
  match CacheFile.read codec fs c with
  | (Except.ok current_data, c1) =>
    let current_str := conv.toStr current_data ++ conv.toStr data_type
    match conv.fromStr current_str with
    | some parsed =>
      let c2 := { c1 with data_type := parsed }
      (CacheFile.write codec fs c2, c2)
    | none => (Except.error Err.parse, c1)
  | (Except.error e, c1) => (Except.error e, c1)

/-- `CacheFile::delete` (src/lib.rs:153-158). -/
def CacheFile.delete {T : Type} (fs : FS) (c : CacheFile T) : Except Err FS :=
  FileHandler.delete fs c.file_handler

/-- `CacheFile::exists` (src/lib.rs:160-162). -/
def CacheFile.existsq {T : Type} (fs : FS) (c : CacheFile T) : Bool :=
  FileHandler.existsq fs c.file_handler

/-- `CacheConfig<T>` (src/lib.rs:165-168). -/
structure CacheConfig (T : Type) where
  file_handler : FileHandler
  config : T
deriving DecidableEq, Repr

/-- `CacheConfig::new` (src/lib.rs:175-204): like `CacheFile::new` with
the JSON codec (`serde_json::from_slice`). -/
def CacheConfig.new {T : Type} (codec : JsonCodec T) (default : T) (fs : FS)
    (file_handler : FileHandler) : CacheConfig T :=
  match FileHandler.read fs file_handler with
  | (Except.ok bytes, fh) =>
    match codec.from_slice bytes with
    | some cfg => { file_handler := fh, config := cfg }
    | none => { file_handler := fh, config := default }
  | (Except.error _, fh) => { file_handler := fh, config := default }

/-- `CacheConfig::get_config` (src/lib.rs:206-208). -/
def CacheConfig.get_config {T : Type} (c : CacheConfig T) : T :=
  c.config

/-- `CacheConfig::read` (src/lib.rs:215-232). -/
def CacheConfig.read {T : Type} (codec : JsonCodec T) (fs : FS) (c : CacheConfig T) :
    Except Err T × CacheConfig T :=
  match FileHandler.read fs c.file_handler with
  | (Except.ok bytes, fh) =>
    match codec.from_slice bytes with
    | some cfg => (Except.ok cfg, { file_handler := fh, config := cfg })
    | none => (Except.error Err.decode, { c with file_handler := fh })
  | (Except.error e, fh) => (Except.error e, { c with file_handler := fh })

/-- `CacheConfig::write` (src/lib.rs:235-248): `serde_json::to_string`,
then write the string's bytes. -/
def CacheConfig.write {T : Type} (codec : JsonCodec T) (fs : FS) (c : CacheConfig T) :
    Except Err FS :=
  match codec.to_string c.config with
  | some json_str => FileHandler.write fs c.file_handler (strBytes json_str)
  | none => Except.error Err.encode

/-- `CacheConfig::delete` (src/lib.rs:250-256). -/
def CacheConfig.delete {T : Type} (fs : FS) (c : CacheConfig T) : Except Err FS :=
  FileHandler.delete fs c.file_handler

/-- `CacheConfig::exists` (src/lib.rs:258-260). -/
def CacheConfig.existsq {T : Type} (fs : FS) (c : CacheConfig T) : Bool :=
  FileHandler.existsq fs c.file_handler

/-- Split a character list at `/` (the path separator); accumulator holds
the current segment reversed. -/
def splitSlash : List Char → List Char → List (List Char)
  | [], acc => [acc.reverse]
  | c :: rest, acc =>
    if c = '/' then acc.reverse :: splitSlash rest []
    else splitSlash rest (c :: acc)

/-- Join path segments with `/`. -/
def joinSlash : List String → String
  | [] => ""
  | [s] => s
  | s :: rest => s ++ "/" ++ joinSlash rest

/-- The chain of paths leading to `p` (each initial run of `/`-separated
segments, ending with `p` itself), used by `create_dir_all`. -/
def dirChain (p : String) : List String :=
  let segs := (splitSlash p.toList []).map (fun cs => String.mk cs)
  (List.range segs.length).map (fun i => joinSlash (segs.take (i + 1)))

/-- `std::fs::create_dir_all`: creates every missing segment of the chain;
fails (returns `none` as the error case) when some segment of the chain is
an existing regular file. -/
def create_dir_all (fs : FS) (p : String) : Option FS :=
  if (dirChain p).any (fun q => (fs.file? q).isSome) then none
  else some { fs with dirs := dirChain p ++ fs.dirs }

/-- `cache_folder` (src/lib.rs:34-41): if the path does not exist, call
`create_dir_all(...).unwrap()`. The `.unwrap()` panic is modeled as the
whole function returning `none` (process abort); `some` is normal return
of the path. -/
def cache_folder (fs : FS) (path : String) : Option (FS × String) :=
  if fs.pathExists path then some (fs, path)
  else
    match create_dir_all fs path with
    | some fs1 => some (fs1, path)
    | none => none

/-! ## Concrete instances used by witnesses -/

/-- A concrete lawful binary codec for `Nat`, standing in for a `bincode`
instantiation in witnesses. -/
def natCodec : Codec Nat where
  encode n := some [n]
  decode bs := match bs with
    | [n] => some n
    | _ => none

/-- A concrete lawful JSON codec for `Nat`, standing in for a
`serde_json` instantiation in witnesses. -/
def natJsonCodec : JsonCodec Nat where
  to_string n := some (String.mk (List.replicate n 'a'))
  from_slice bs := some bs.length

/-- A concrete `Display`/`FromStr` pair for `Bool`, matching Rust's
(`"true"`/`"false"`, anything else fails to parse). -/
def boolConv : StrConv Bool where
  toStr b := if b then "true" else "false"
  fromStr s := if s = "true" then some true else if s = "false" then some false else none

/-- A concrete binary codec for `Bool`. -/
def boolCodec : Codec Bool where
  encode b := some [if b then 1 else 0]
  decode bs := match bs with
    | [1] => some true
    | [0] => some false
    | _ => none

/-- An empty filesystem. -/
def fs0 : FS := { files := [], dirs := [], rdeny := [], wdeny := [] }

/-- A handle on a path that does not exist in `fs0`. -/
def fh0 : FileHandler := FileHandler.new "cache.bin"

/-! ## Claims -/

/-- Claim C1: construction of a typed cache (`CacheFile::new` and
`CacheConfig::new`) never fails (both are total functions here); if the
file read fails, or it succeeds but decoding fails, the in-memory value is
the supplied `T::default()`; if both succeed, it is the decoded value. -/
theorem claim_c1 {T U : Type} (codec : Codec T) (jcodec : JsonCodec U)
    (dT : T) (dU : U) (fs : FS) (fh : FileHandler) :
    (∀ e, (FileHandler.read fs fh).1 = Except.error e →
      (CacheFile.new codec dT fs fh).data_type = dT
      ∧ (CacheConfig.new jcodec dU fs fh).config = dU)
    ∧ (∀ bs, (FileHandler.read fs fh).1 = Except.ok bs →
      (codec.decode bs = none → (CacheFile.new codec dT fs fh).data_type = dT)
      ∧ (∀ d, codec.decode bs = some d → (CacheFile.new codec dT fs fh).data_type = d)
      ∧ (jcodec.from_slice bs = none → (CacheConfig.new jcodec dU fs fh).config = dU)
      ∧ (∀ d, jcodec.from_slice bs = some d → (CacheConfig.new jcodec dU fs fh).config = d)) := by
  rcases hres : FileHandler.read fs fh with ⟨r, fh2⟩
  constructor
  · intro e he
    have hr : r = Except.error e := he
    subst hr
    exact ⟨by simp [CacheFile.new, hres], by simp [CacheConfig.new, hres]⟩
  · intro bs hbs
    have hr : r = Except.ok bs := hbs
    subst hr
    refine ⟨?_, ?_, ?_, ?_⟩
    · intro hd; simp [CacheFile.new, hres, hd]
    · intro d hd; simp [CacheFile.new, hres, hd]
    · intro hd; simp [CacheConfig.new, hres, hd]
    · intro d hd; simp [CacheConfig.new, hres, hd]

/-- Witness for C1 at a concrete input: on the empty filesystem the read
fails and both constructions fall back to the default `0`. -/
theorem claim_c1_witness :
    (CacheFile.new natCodec 0 fs0 fh0).data_type = 0
    ∧ (CacheConfig.new natJsonCodec 0 fs0 fh0).config = 0 :=
  (claim_c1 natCodec natJsonCodec 0 0 fs0 fh0).1 Err.io rfl

/-- Claim C3: the typed cache `read` leaves the in-memory value unchanged
on any failure, replaces it with the decoded file contents and returns a
copy of that value on success, and fails exactly when the file read fails
or decoding fails (both variants). -/
theorem claim_c3 {T U : Type} (codec : Codec T) (jcodec : JsonCodec U)
    (fs : FS) (c : CacheFile T) (k : CacheConfig U) :
    (∀ e c1, CacheFile.read codec fs c = (Except.error e, c1) →
      c1.data_type = c.data_type)
    ∧ (∀ v c1, CacheFile.read codec fs c = (Except.ok v, c1) →
      c1.data_type = v
      ∧ ∃ bs, (FileHandler.read fs c.file_handler).1 = Except.ok bs ∧ codec.decode bs = some v)
    ∧ ((∃ e c1, CacheFile.read codec fs c = (Except.error e, c1)) ↔
      ((∃ e, (FileHandler.read fs c.file_handler).1 = Except.error e)
        ∨ (∃ bs, (FileHandler.read fs c.file_handler).1 = Except.ok bs
            ∧ codec.decode bs = none)))
    ∧ (∀ e k1, CacheConfig.read jcodec fs k = (Except.error e, k1) →
      k1.config = k.config)
    ∧ (∀ v k1, CacheConfig.read jcodec fs k = (Except.ok v, k1) →
      k1.config = v
      ∧ ∃ bs, (FileHandler.read fs k.file_handler).1 = Except.ok bs
          ∧ jcodec.from_slice bs = some v) := by
  refine ⟨?_, ?_, ?_, ?_, ?_⟩
  · intro e c1 h
    rcases hres : FileHandler.read fs c.file_handler with ⟨r, fh2⟩
    cases r with
    | ok bs =>
      cases hd : codec.decode bs with
      | some d => simp [CacheFile.read, hres, hd] at h
      | none => simp [CacheFile.read, hres, hd] at h; simp [← h.2]
    | error e2 => simp [CacheFile.read, hres] at h; simp [← h.2]
  · intro v c1 h
    rcases hres : FileHandler.read fs c.file_handler with ⟨r, fh2⟩
    cases r with
    | ok bs =>
      cases hd : codec.decode bs with
      | some d =>
        simp [CacheFile.read, hres, hd] at h
        exact ⟨by simp [← h.2, h.1], bs, by simp [hres], by simp [hd, h.1]⟩
      | none => simp [CacheFile.read, hres, hd] at h
    | error e2 => simp [CacheFile.read, hres] at h
  · rcases hres : FileHandler.read fs c.file_handler with ⟨r, fh2⟩
    cases r with
    | ok bs =>
      cases hd : codec.decode bs with
      | some d => simp [CacheFile.read, hres, hd]
      | none => simp [CacheFile.read, hres, hd]
    | error e2 => simp [CacheFile.read, hres]
  · intro e k1 h
    rcases hres : FileHandler.read fs k.file_handler with ⟨r, fh2⟩
    cases r with
    | ok bs =>
      cases hd : jcodec.from_slice bs with
      | some d => simp [CacheConfig.read, hres, hd] at h
      | none => simp [CacheConfig.read, hres, hd] at h; simp [← h.2]
    | error e2 => simp [CacheConfig.read, hres] at h; simp [← h.2]
  · intro v k1 h
    rcases hres : FileHandler.read fs k.file_handler with ⟨r, fh2⟩
    cases r with
    | ok bs =>
      cases hd : jcodec.from_slice bs with
      | some d =>
        simp [CacheConfig.read, hres, hd] at h
        exact ⟨by simp [← h.2, h.1], bs, by simp [hres], by simp [hd, h.1]⟩
      | none => simp [CacheConfig.read, hres, hd] at h
    | error e2 => simp [CacheConfig.read, hres] at h

/-- Witness for C3 at a concrete input: reading from the empty filesystem
fails and the in-memory value `7` is preserved (both variants). -/
theorem claim_c3_witness :
    (CacheFile.read natCodec fs0 ⟨fh0, 7⟩).2.data_type = 7
    ∧ (CacheConfig.read natJsonCodec fs0 ⟨fh0, 7⟩).2.config = 7 :=
  ⟨(claim_c3 natCodec natJsonCodec fs0 ⟨fh0, 7⟩ ⟨fh0, 7⟩).1 Err.io
      (CacheFile.read natCodec fs0 ⟨fh0, 7⟩).2 rfl,
    (claim_c3 natCodec natJsonCodec fs0 ⟨fh0, 7⟩ ⟨fh0, 7⟩).2.2.2.1 Err.io
      (CacheConfig.read natJsonCodec fs0 ⟨fh0, 7⟩).2 rfl⟩

/-- Claim C6: constructing against a path that does not exist yields the
default value, construction neither fails (both `new` functions are total)
nor creates the file: the construction functions take the filesystem only
as input and return no filesystem, so the state is unchanged and the path
still holds no file. -/
theorem claim_c6 {T U : Type} (codec : Codec T) (jcodec : JsonCodec U)
    (dT : T) (dU : U) (fs : FS) (p : String)
    (h : fs.pathExists p = false) :
    (CacheFile.new codec dT fs (FileHandler.new p)).data_type = dT
    ∧ (CacheConfig.new jcodec dU fs (FileHandler.new p)).config = dU
    ∧ fs.file? p = none := by
  have hf : fs.file? p = none := by
    cases ho : fs.file? p with
    | none => rfl
    | some bs => simp [FS.pathExists, ho] at h
  refine ⟨?_, ?_, hf⟩
  · by_cases hr : p ∈ fs.rdeny
    · simp [CacheFile.new, FileHandler.read, FileHandler.new, hr]
    · simp [CacheFile.new, FileHandler.read, FileHandler.new, hr, hf]
  · by_cases hr : p ∈ fs.rdeny
    · simp [CacheConfig.new, FileHandler.read, FileHandler.new, hr]
    · simp [CacheConfig.new, FileHandler.read, FileHandler.new, hr, hf]

/-- Witness for C6 at a concrete input: the path `cache.bin` does not
exist in the empty filesystem and construction yields the default `5`. -/
theorem claim_c6_witness :
    (CacheFile.new natCodec 5 fs0 (FileHandler.new "cache.bin")).data_type = 5
    ∧ (CacheConfig.new natJsonCodec 5 fs0 (FileHandler.new "cache.bin")).config = 5
    ∧ fs0.file? "cache.bin" = none :=
  claim_c6 natCodec natJsonCodec 5 5 fs0 "cache.bin" rfl

/-- A filesystem holding one file, `cache.bin`, with contents `[1]`
(a `boolCodec` encoding of `true`). -/
def fsB : FS := { files := [("cache.bin", [1])], dirs := [], rdeny := [], wdeny := [] }

/-- Looking up the path just written by `setFile` yields exactly the
written bytes. -/
theorem FS.file?_setFile_self (fs : FS) (p : String) (bs : Bytes) :
    (fs.setFile p bs).file? p = some bs := by
  simp [FS.setFile, FS.file?]

/-- The error-injection sets and directories survive `setFile`. -/
theorem FS.rdeny_setFile (fs : FS) (p : String) (bs : Bytes) :
    (fs.setFile p bs).rdeny = fs.rdeny := rfl

/-- The write-denied set survives `setFile`. -/
theorem FS.wdeny_setFile (fs : FS) (p : String) (bs : Bytes) :
    (fs.setFile p bs).wdeny = fs.wdeny := rfl

/-- `find?` by key commutes past filtering out a different key. -/
theorem find?_filter_ne_key (l : List (String × Bytes)) (p q : String) (h : ¬ q = p) :
    List.find? (fun e => e.1 == q) (l.filter (fun e => e.1 != p))
      = List.find? (fun e => e.1 == q) l := by
  induction l with
  | nil => rfl
  | cons a l ih =>
    by_cases ha : a.1 = p
    · have hpq : (p == q) = false := beq_eq_false_iff_ne.mpr fun hh => h hh.symm
      have haq : (a.1 == q) = false := by rw [ha]; exact hpq
      have hap : (a.1 != p) = false := by simp [ha]
      simp [List.filter_cons, hap, List.find?, haq, ih]
    · have hap : (a.1 != p) = true := by simp [ha]
      cases haq : (a.1 == q) with
      | true => simp [List.filter_cons, hap, List.find?, haq]
      | false => simp [List.filter_cons, hap, List.find?, haq, ih]

/-- `setFile` does not touch the contents at any other path. -/
theorem FS.file?_setFile_ne (fs : FS) (p q : String) (bs : Bytes) (h : ¬ q = p) :
    (fs.setFile p bs).file? q = fs.file? q := by
  simp only [FS.setFile, FS.file?, List.find?]
  have hq : (p == q) = false := by
    simp
    intro hpq
    exact h hpq.symm
  simp [hq, find?_filter_ne_key fs.files p q h]

/-- Claim C2: round-trip. If the codec encodes the in-memory value `v` to
bytes that decode back to `v` (the codec round-trips at `v`, which the
out-of-scope serialization collaborator provides for supported types), the
path is readable, and `write()` succeeds, then a fresh construction of the
same variant against the same path yields an in-memory value equal to `v`
(both variants). -/
theorem claim_c2 {T U : Type} (codec : Codec T) (jcodec : JsonCodec U)
    (dT : T) (dU : U) (fs : FS) (c : CacheFile T) (k : CacheConfig U)
    (bs : Bytes) (s : String) (fs1 fs2 : FS) :
    (codec.encode c.data_type = some bs →
      codec.decode bs = some c.data_type →
      c.file_handler.path ∉ fs.rdeny →
      CacheFile.write codec fs c = Except.ok fs1 →
      (CacheFile.new codec dT fs1 (FileHandler.new c.file_handler.path)).data_type
        = c.data_type)
    ∧ (jcodec.to_string k.config = some s →
      jcodec.from_slice (strBytes s) = some k.config →
      k.file_handler.path ∉ fs.rdeny →
      CacheConfig.write jcodec fs k = Except.ok fs2 →
      (CacheConfig.new jcodec dU fs2 (FileHandler.new k.file_handler.path)).config
        = k.config) := by
  constructor
  · intro he hd hrd hw
    have hw2 : FileHandler.write fs c.file_handler bs = Except.ok fs1 := by
      simpa [CacheFile.write, he] using hw
    by_cases hwd : c.file_handler.path ∈ fs.wdeny
    · simp [FileHandler.write, hwd] at hw2
    · simp [FileHandler.write, hwd] at hw2
      simp [CacheFile.new, FileHandler.read, FileHandler.new, ← hw2, FS.rdeny_setFile,
        hrd, FS.file?_setFile_self, hd]
  · intro he hd hrd hw
    have hw2 : FileHandler.write fs k.file_handler (strBytes s) = Except.ok fs2 := by
      simpa [CacheConfig.write, he] using hw
    by_cases hwd : k.file_handler.path ∈ fs.wdeny
    · simp [FileHandler.write, hwd] at hw2
    · simp [FileHandler.write, hwd] at hw2
      simp [CacheConfig.new, FileHandler.read, FileHandler.new, ← hw2, FS.rdeny_setFile,
        hrd, FS.file?_setFile_self, hd]

/-- Witness for C2 at concrete inputs: value `42` written by a binary
cache and `3` written by a JSON config both survive the round-trip. -/
theorem claim_c2_witness :
    (CacheFile.new natCodec 0 (fs0.setFile "cache.bin" [42])
        (FileHandler.new "cache.bin")).data_type = 42
    ∧ (CacheConfig.new natJsonCodec 0 (fs0.setFile "cache.bin" (strBytes "aaa"))
        (FileHandler.new "cache.bin")).config = 3 :=
  ⟨(claim_c2 natCodec natJsonCodec 0 0 fs0 ⟨fh0, 42⟩ ⟨fh0, 3⟩ [42] "aaa"
        (fs0.setFile "cache.bin" [42]) (fs0.setFile "cache.bin" (strBytes "aaa"))).1
      rfl rfl (by simp [fs0]) rfl,
    (claim_c2 natCodec natJsonCodec 0 0 fs0 ⟨fh0, 42⟩ ⟨fh0, 3⟩ [42] "aaa"
        (fs0.setFile "cache.bin" [42]) (fs0.setFile "cache.bin" (strBytes "aaa"))).2
      rfl rfl (by simp [fs0]) rfl⟩

/-- Claim C5: when `FileHandler::write` returns `Ok`, the file at the
handle's path contains exactly the given bytes (prior content is gone:
`setFile` replaces it), and a creation/permission failure is reported as
an I/O error. -/
theorem claim_c5 (fs : FS) (fh : FileHandler) (bs : Bytes) :
    (∀ fs1, FileHandler.write fs fh bs = Except.ok fs1 → fs1.file? fh.path = some bs)
    ∧ (fh.path ∈ fs.wdeny → FileHandler.write fs fh bs = Except.error Err.io) := by
  constructor
  · intro fs1 hw
    by_cases hwd : fh.path ∈ fs.wdeny
    · simp [FileHandler.write, hwd] at hw
    · simp [FileHandler.write, hwd] at hw
      rw [← hw]
      exact FS.file?_setFile_self fs fh.path bs
  · intro hwd
    simp [FileHandler.write, hwd]

/-- Witness for C5 at a concrete input: writing `[1, 2]` to `cache.bin`
on the empty filesystem succeeds and the file then holds `[1, 2]`. -/
theorem claim_c5_witness :
    (fs0.setFile "cache.bin" [1, 2]).file? "cache.bin" = some [1, 2] :=
  (claim_c5 fs0 fh0 [1, 2]).1 (fs0.setFile "cache.bin" [1, 2]) rfl

/-- Claim C7: idempotent write. If `write()` succeeds once, a second
`write()` with no intervening mutation of the in-memory value also
succeeds, and the file contents after each write are byte-identical (both
are the deterministic encoding of the in-memory value; both variants). -/
theorem claim_c7 {T U : Type} (codec : Codec T) (jcodec : JsonCodec U)
    (fs : FS) (c : CacheFile T) (k : CacheConfig U) :
    (∀ fs1, CacheFile.write codec fs c = Except.ok fs1 →
      ∃ fs2, CacheFile.write codec fs1 c = Except.ok fs2
        ∧ fs1.file? c.file_handler.path = fs2.file? c.file_handler.path
        ∧ ∃ bs, codec.encode c.data_type = some bs
            ∧ fs1.file? c.file_handler.path = some bs)
    ∧ (∀ fs1, CacheConfig.write jcodec fs k = Except.ok fs1 →
      ∃ fs2, CacheConfig.write jcodec fs1 k = Except.ok fs2
        ∧ fs1.file? k.file_handler.path = fs2.file? k.file_handler.path
        ∧ ∃ s, jcodec.to_string k.config = some s
            ∧ fs1.file? k.file_handler.path = some (strBytes s)) := by
  constructor
  · intro fs1 hw
    cases he : codec.encode c.data_type with
    | none => simp [CacheFile.write, he] at hw
    | some bs =>
      by_cases hwd : c.file_handler.path ∈ fs.wdeny
      · simp [CacheFile.write, he, FileHandler.write, hwd] at hw
      · simp [CacheFile.write, he, FileHandler.write, hwd] at hw
        refine ⟨fs1.setFile c.file_handler.path bs, ?_, ?_, bs, rfl, ?_⟩
        · have hwd1 : c.file_handler.path ∉ fs1.wdeny := by
            rw [← hw]; simpa [FS.setFile] using hwd
          simp [CacheFile.write, he, FileHandler.write, hwd1]
        · rw [← hw]
          simp [FS.file?_setFile_self]
        · rw [← hw]
          exact FS.file?_setFile_self fs c.file_handler.path bs
  · intro fs1 hw
    cases he : jcodec.to_string k.config with
    | none => simp [CacheConfig.write, he] at hw
    | some s =>
      by_cases hwd : k.file_handler.path ∈ fs.wdeny
      · simp [CacheConfig.write, he, FileHandler.write, hwd] at hw
      · simp [CacheConfig.write, he, FileHandler.write, hwd] at hw
        refine ⟨fs1.setFile k.file_handler.path (strBytes s), ?_, ?_, s, rfl, ?_⟩
        · have hwd1 : k.file_handler.path ∉ fs1.wdeny := by
            rw [← hw]; simpa [FS.setFile] using hwd
          simp [CacheConfig.write, he, FileHandler.write, hwd1]
        · rw [← hw]
          simp [FS.file?_setFile_self]
        · rw [← hw]
          exact FS.file?_setFile_self fs k.file_handler.path (strBytes s)

/-- Witness for C7 at a concrete input: writing the binary cache value
`9` twice leaves `cache.bin` holding `[9]` both times. -/
theorem claim_c7_witness :
    ∃ fs2, CacheFile.write natCodec (fs0.setFile "cache.bin" [9]) ⟨fh0, 9⟩ = Except.ok fs2
      ∧ (fs0.setFile "cache.bin" [9]).file? "cache.bin" = fs2.file? "cache.bin"
      ∧ ∃ bs, natCodec.encode 9 = some bs
          ∧ (fs0.setFile "cache.bin" [9]).file? "cache.bin" = some bs :=
  (claim_c7 natCodec natJsonCodec fs0 ⟨fh0, 9⟩ ⟨fh0, 9⟩).1
    (fs0.setFile "cache.bin" [9]) rfl

/-- Claim C8: `FileHandler::append` fails with an I/O error whenever the
file does not already exist (the open uses append mode without create);
when the file exists and the path is not write-denied, it appends the
bytes at the end, preserving the existing content as a prefix and leaving
every other path untouched. -/
theorem claim_c8 (fs : FS) (fh : FileHandler) (bs : Bytes) :
    (fs.file? fh.path = none → FileHandler.append fs fh bs = Except.error Err.io)
    ∧ (∀ old, fs.file? fh.path = some old → fh.path ∉ fs.wdeny →
      ∃ fs1, FileHandler.append fs fh bs = Except.ok fs1
        ∧ fs1.file? fh.path = some (old ++ bs)
        ∧ ∀ q, ¬ q = fh.path → fs1.file? q = fs.file? q) := by
  constructor
  · intro hnone
    by_cases hwd : fh.path ∈ fs.wdeny
    · simp [FileHandler.append, hwd]
    · simp [FileHandler.append, hwd, hnone]
  · intro old hsome hwd
    refine ⟨fs.setFile fh.path (old ++ bs), ?_, ?_, ?_⟩
    · simp [FileHandler.append, hwd, hsome]
    · exact FS.file?_setFile_self fs fh.path (old ++ bs)
    · intro q hq
      exact FS.file?_setFile_ne fs fh.path q (old ++ bs) hq

/-- Witness for C8 at concrete inputs: appending to the missing
`cache.bin` in the empty filesystem fails; appending `[2]` to the
existing `[1]` in `fsB` yields `[1, 2]`. -/
theorem claim_c8_witness :
    FileHandler.append fs0 fh0 [2] = Except.error Err.io
    ∧ ∃ fs1, FileHandler.append fsB fh0 [2] = Except.ok fs1
        ∧ fs1.file? "cache.bin" = some [1, 2]
        ∧ ∀ q, ¬ q = "cache.bin" → fs1.file? q = fsB.file? q :=
  ⟨(claim_c8 fs0 fh0 [2]).1 rfl,
    (claim_c8 fsB fh0 [2]).2 [1] rfl (by simp [fsB])⟩

/-- Claim C10: a failed `CacheFile::append` is not atomic on the
in-memory state. If the internal `read()` succeeds and decodes `d` from
disk but the concatenated display string does not re-parse as `T`, then
`append` returns a parse error while the in-memory value has already been
replaced by `d`; when the prior value differed from `d`, the value after
the error differs from the value before the call. -/
theorem claim_c10 {T : Type} (codec : Codec T) (conv : StrConv T) (fs : FS)
    (c : CacheFile T) (v : T) (bs : Bytes) (d : T)
    (hread : (FileHandler.read fs c.file_handler).1 = Except.ok bs)
    (hdec : codec.decode bs = some d)
    (hparse : conv.fromStr (conv.toStr d ++ conv.toStr v) = none) :
    (CacheFile.append codec conv fs c v).1 = Except.error Err.parse
    ∧ (CacheFile.append codec conv fs c v).2.data_type = d
    ∧ (¬ c.data_type = d →
      ¬ (CacheFile.append codec conv fs c v).2.data_type = c.data_type) := by
  rcases hres : FileHandler.read fs c.file_handler with ⟨r, fh2⟩
  have hr : r = Except.ok bs := by rw [hres] at hread; exact hread
  subst hr
  refine ⟨?_, ?_, ?_⟩
  · simp [CacheFile.append, CacheFile.read, hres, hdec, hparse]
  · simp [CacheFile.append, CacheFile.read, hres, hdec, hparse]
  · intro hne habs
    rw [CacheFile.append] at habs
    simp [CacheFile.read, hres, hdec, hparse] at habs
    exact hne habs.symm

/-- Witness for C10 at a concrete input: the file holds the encoding of
`true`, the prior in-memory value is `false`, appending `true` fails to
re-parse `truetrue`, and after the error the in-memory value is `true`,
no longer `false`. -/
theorem claim_c10_witness :
    (CacheFile.append boolCodec boolConv fsB ⟨fh0, false⟩ true).1 = Except.error Err.parse
    ∧ (CacheFile.append boolCodec boolConv fsB ⟨fh0, false⟩ true).2.data_type = true
    ∧ (¬ (false : Bool) = true →
      ¬ (CacheFile.append boolCodec boolConv fsB ⟨fh0, false⟩ true).2.data_type = false) :=
  claim_c10 boolCodec boolConv fsB ⟨fh0, false⟩ true [1] true rfl rfl rfl

/-- A filesystem holding a regular file at `a`, which makes
`create_dir_all` fail for the path `a/b`. -/
def fsA : FS := { files := [("a", [])], dirs := [], rdeny := [], wdeny := [] }

/-- Claim C4 counterexample: `cache_folder` is NOT recoverable on
directory-creation failure. With a regular file at `a`, the path `a/b`
does not exist, `create_dir_all` fails, and the source's `.unwrap()`
aborts the process (modeled as `none`): the failure is not returned to
the caller. -/
theorem claim_c4_counterexample : cache_folder fsA "a/b" = none := by decide

/-- Claim C4 (amended): every `FileHandler`/`CacheFile`/`CacheConfig`
operation returns its failures to the caller (they are total functions
into `Except` in this embedding), but the top-level `cache_folder` is the
exception: it aborts the process exactly when the path does not exist and
directory creation fails (a segment of the path chain is an existing
regular file); in every non-aborting case it returns the given path. -/
theorem claim_c4_amended (fs : FS) (p : String) :
    (cache_folder fs p = none ↔
      (fs.pathExists p = false
        ∧ (dirChain p).any (fun q => (fs.file? q).isSome) = true))
    ∧ (∀ fs1 p1, cache_folder fs p = some (fs1, p1) → p1 = p) := by
  constructor
  · constructor
    · intro h
      by_cases hex : fs.pathExists p = true
      · simp [cache_folder, hex] at h
      · have hex2 : fs.pathExists p = false := by simpa using hex
        refine ⟨hex2, ?_⟩
        by_cases hc : (dirChain p).any (fun q => (fs.file? q).isSome) = true
        · exact hc
        · have hc2 : (dirChain p).any (fun q => (fs.file? q).isSome) = false := by
            simpa using hc
          simp [cache_folder, hex2, create_dir_all, hc2] at h
    · rintro ⟨h1, h2⟩
      simp [cache_folder, h1, create_dir_all, h2]
  · intro fs1 p1 h
    by_cases hex : fs.pathExists p = true
    · simp [cache_folder, hex] at h
      exact h.2.symm
    · have hex2 : fs.pathExists p = false := by simpa using hex
      cases hcda : create_dir_all fs p with
      | none => simp [cache_folder, hex2, hcda] at h
      | some fsX =>
        simp [cache_folder, hex2, hcda] at h
        exact h.2.symm

/-- Witness for the amended C4 at concrete inputs: the abort case at the
blocked path `a/b`, and the normal-return case at the free path `d`. -/
theorem claim_c4_witness :
    cache_folder fsA "a/b" = none ∧ ("d" : String) = "d" :=
  ⟨(claim_c4_amended fsA "a/b").1.mpr ⟨by decide, by decide⟩,
    (claim_c4_amended fs0 "d").2 { fs0 with dirs := dirChain "d" } "d" (by decide)⟩

/-- The operations of `FileHandler`, for stating the advisory-cache
invariant over a single transition. -/
inductive FOp
  | read
  | write (bs : Bytes)
  | append (bs : Bytes)
  | delete
  | existsq
  | copy_to (destination : String)
  | move_to (destination : String)
  | metadata
deriving DecidableEq, Repr

/-- Results observable from a `FileHandler` operation. -/
inductive FRes
  | bytes (bs : Bytes)
  | unit
  | bool (b : Bool)
  | nat (n : Nat)
  | err (e : Err)
deriving DecidableEq, Repr

/-- One `FileHandler` operation as a transition on the filesystem, the
handle, and an observable result; a direct dispatch to the operation
definitions above. -/
def FileHandler.step (fs : FS) (fh : FileHandler) : FOp → FS × FileHandler × FRes
  | FOp.read =>
    match FileHandler.read fs fh with
    | (Except.ok bs, fh1) => (fs, fh1, FRes.bytes bs)
    | (Except.error e, fh1) => (fs, fh1, FRes.err e)
  | FOp.write bs =>
    match FileHandler.write fs fh bs with
    | Except.ok fs1 => (fs1, fh, FRes.unit)
    | Except.error e => (fs, fh, FRes.err e)
  | FOp.append bs =>
    match FileHandler.append fs fh bs with
    | Except.ok fs1 => (fs1, fh, FRes.unit)
    | Except.error e => (fs, fh, FRes.err e)
  | FOp.delete =>
    match FileHandler.delete fs fh with
    | Except.ok fs1 => (fs1, fh, FRes.unit)
    | Except.error e => (fs, fh, FRes.err e)
  | FOp.existsq => (fs, fh, FRes.bool (FileHandler.existsq fs fh))
  | FOp.copy_to d =>
    match FileHandler.copy_to fs fh d with
    | Except.ok fs1 => (fs1, fh, FRes.unit)
    | Except.error e => (fs, fh, FRes.err e)
  | FOp.move_to d =>
    match FileHandler.move_to fs fh d with
    | Except.ok fs1 => (fs1, fh, FRes.unit)
    | Except.error e => (fs, fh, FRes.err e)
  | FOp.metadata =>
    match FileHandler.metadata fs fh with
    | Except.ok n => (fs, fh, FRes.nat n)
    | Except.error e => (fs, fh, FRes.err e)

/-- Claim C9: the advisory byte cache `content` is never consulted — the
filesystem effect and the observable result of every operation are the
same for any two handles differing only in `content` — and `content`
starts out empty and changes only on a successful `read`, where it
becomes exactly the bytes that `read` returns. -/
theorem claim_c9 (fs : FS) (p : String) (c c1 : Option Bytes) (op : FOp) :
    ((FileHandler.step fs ⟨p, c⟩ op).1 = (FileHandler.step fs ⟨p, c1⟩ op).1
      ∧ (FileHandler.step fs ⟨p, c⟩ op).2.2 = (FileHandler.step fs ⟨p, c1⟩ op).2.2)
    ∧ ((FileHandler.step fs ⟨p, c⟩ op).2.1.content = c
      ∨ ∃ bs, op = FOp.read
          ∧ (FileHandler.step fs ⟨p, c⟩ op).2.2 = FRes.bytes bs
          ∧ (FileHandler.step fs ⟨p, c⟩ op).2.1.content = some bs
          ∧ (FileHandler.read fs ⟨p, c⟩).1 = Except.ok bs)
    ∧ (FileHandler.new p).content = none := by
  refine ⟨?_, ?_, rfl⟩
  · cases op with
    | read =>
      by_cases hr : p ∈ fs.rdeny
      · simp [FileHandler.step, FileHandler.read, hr]
      · cases hf : fs.file? p <;>
          simp [FileHandler.step, FileHandler.read, hr, hf]
    | write bs =>
      by_cases hw : p ∈ fs.wdeny <;>
        simp [FileHandler.step, FileHandler.write, hw]
    | append bs =>
      by_cases hw : p ∈ fs.wdeny
      · simp [FileHandler.step, FileHandler.append, hw]
      · cases hf : fs.file? p <;>
          simp [FileHandler.step, FileHandler.append, hw, hf]
    | delete =>
      cases hf : fs.file? p <;>
        simp [FileHandler.step, FileHandler.delete, hf]
    | existsq => simp [FileHandler.step, FileHandler.existsq]
    | copy_to d =>
      by_cases h1 : p ∈ fs.rdeny
      · simp [FileHandler.step, FileHandler.copy_to, h1]
      · by_cases h2 : d ∈ fs.wdeny
        · simp [FileHandler.step, FileHandler.copy_to, h1, h2]
        · cases hf : fs.file? p <;>
            simp [FileHandler.step, FileHandler.copy_to, h1, h2, hf]
    | move_to d =>
      by_cases h2 : d ∈ fs.wdeny
      · simp [FileHandler.step, FileHandler.move_to, h2]
      · cases hf : fs.file? p <;>
          simp [FileHandler.step, FileHandler.move_to, h2, hf]
    | metadata =>
      cases hf : fs.file? p <;>
        simp [FileHandler.step, FileHandler.metadata, hf]
  · cases op with
    | read =>
      by_cases hr : p ∈ fs.rdeny
      · left; simp [FileHandler.step, FileHandler.read, hr]
      · cases hf : fs.file? p with
        | none => left; simp [FileHandler.step, FileHandler.read, hr, hf]
        | some bs =>
          right
          exact ⟨bs, rfl, by simp [FileHandler.step, FileHandler.read, hr, hf],
            by simp [FileHandler.step, FileHandler.read, hr, hf],
            by simp [FileHandler.read, hr, hf]⟩
    | write bs =>
      left
      by_cases hw : p ∈ fs.wdeny <;>
        simp [FileHandler.step, FileHandler.write, hw]
    | append bs =>
      left
      by_cases hw : p ∈ fs.wdeny
      · simp [FileHandler.step, FileHandler.append, hw]
      · cases hf : fs.file? p <;>
          simp [FileHandler.step, FileHandler.append, hw, hf]
    | delete =>
      left
      cases hf : fs.file? p <;>
        simp [FileHandler.step, FileHandler.delete, hf]
    | existsq => left; simp [FileHandler.step]
    | copy_to d =>
      left
      by_cases h1 : p ∈ fs.rdeny
      · simp [FileHandler.step, FileHandler.copy_to, h1]
      · by_cases h2 : d ∈ fs.wdeny
        · simp [FileHandler.step, FileHandler.copy_to, h1, h2]
        · cases hf : fs.file? p <;>
            simp [FileHandler.step, FileHandler.copy_to, h1, h2, hf]
    | move_to d =>
      left
      by_cases h2 : d ∈ fs.wdeny
      · simp [FileHandler.step, FileHandler.move_to, h2]
      · cases hf : fs.file? p <;>
          simp [FileHandler.step, FileHandler.move_to, h2, hf]
    | metadata =>
      left
      cases hf : fs.file? p <;>
        simp [FileHandler.step, FileHandler.metadata, hf]

end LDC
